import Mathlib

/-!
Formal verification of the AVRmada battleship firmware (v2.0, bitmap board
representation). The definitions below are a shallow embedding of the C
sources under `src/AVRmada/src/` — `battleship_utils.c`, `main.c` and
`singleplayer.c` — into Lean. Machine integers are modelled as `Nat` with
explicit `% 2^w` reductions where the C code can wrap; the bit-packed board
arrays are modelled as byte-indexed functions; the hardware/UI collaborators
(display, audio, joystick, UART transmit) are out of scope, so the protocol
transmit helpers are modelled as emitted message lists.
-/

namespace AVRmada

/-! ### Board dimensions (battleship_utils.h) -/

def GRID_ROWS : Nat := 10
def GRID_COLS : Nat := 10
def GRID_CELLS : Nat := GRID_ROWS * GRID_COLS
def BITMAP_SIZE : Nat := (GRID_CELLS + 7) / 8

def NUM_SHIPS : Nat := 5

/-- `SHIP_LENGTHS` from `battleship_utils.c`: `{5, 4, 3, 3, 2}`. -/
def SHIP_LENGTHS : List Nat := [5, 4, 3, 3, 2]

/-! ### Bit-packed board bitmaps (battleship_utils.h)

A C board bitmap is a fixed array of `BITMAP_SIZE` bytes. We model it as a
total function from byte index to byte value; all indices actually used by
the firmware are below `BITMAP_SIZE`. -/

def Bitmap : Type := Nat → Nat

/-- `_grid_index(row, col) = row * GRID_COLS + col`. -/
def grid_index (row col : Nat) : Nat := row * GRID_COLS + col

/-- `_byte_index(idx) = idx >> 3`. -/
def byte_index (idx : Nat) : Nat := idx / 8

/-- `_bit_mask(idx) = 1 << (idx & 7)`. -/
def bit_mask (idx : Nat) : Nat := 2 ^ (idx % 8)

/-- `BITMAP_GET(bitmap, r, c)`: test bit `(r,c)`. -/
def BITMAP_GET (bm : Bitmap) (r c : Nat) : Bool :=
  (bm (byte_index (grid_index r c)) &&& bit_mask (grid_index r c)) != 0

/-- `BITMAP_SET(bitmap, r, c)`: set bit `(r,c)` to 1. -/
def BITMAP_SET (bm : Bitmap) (r c : Nat) : Bitmap :=
  fun i =>
    if i = byte_index (grid_index r c) then
      bm i ||| bit_mask (grid_index r c)
    else bm i

/-- An all-zero bitmap (the state after `memset(..., 0, BITMAP_SIZE)`). -/
def emptyBitmap : Bitmap := fun _ => 0

/-! ### Pseudo-random generator, 16-bit Galois LFSR (battleship_utils.c) -/

/-- `srand16(seed)`: `lfsr = seed ? seed : 0xACE1u`. The `% 65536` models the
conversion of the argument to the `uint16_t` parameter type. -/
def srand16 (seed : Nat) : Nat :=
  if seed % 65536 = 0 then 0xACE1 else seed % 65536

/-- One step of `rand16()`:
`lfsr = (lfsr >> 1) ^ (-(lfsr & 1u) & 0xB400u)`, stored into a `uint16_t`.
`-(lfsr & 1u) & 0xB400u` is `0xB400` when the low bit is set and `0` otherwise. -/
def rand16_step (s : Nat) : Nat :=
  ((s / 2) ^^^ (if s % 2 = 1 then 0xB400 else 0)) % 65536

/-- `rand_int(min, max) = rand16() % (max - min + 1) + min` (for
`min ≤ max`, as used by the firmware); `rng` is the `rand16()` draw. -/
def rand_int (min max rng : Nat) : Nat :=
  (rng % (max - min + 1) + min) % 65536

/-! ### ship_can_fit (battleship_utils.c, lines 193-206) -/

/-- `ship_can_fit(occupiedBitmap, row, col, len, horizontal)`: bound check in
the ship's direction, then a scan of the `len` target cells for occupancy.
The loop's early `return false` is the failure of `List.all`. -/
def ship_can_fit (occ : Bitmap) (row col len : Nat) (horizontal : Bool) : Bool :=
  if horizontal then
    if col + len > GRID_COLS then false
    else (List.range len).all (fun x => !BITMAP_GET occ row (col + x))
  else
    if row + len > GRID_ROWS then false
    else (List.range len).all (fun y => !BITMAP_GET occ (row + y) col)

/-! ### Game state machine (main.c)

The enums `gState`/`nState`, the globals that the protocol handlers touch, and
the incoming-line handlers. The display/audio/joystick collaborators are out
of scope; `tx_ready`/`tx_attack`/`tx_result` are modelled as emitted messages. -/

/-- The three wire messages (`READY <tok>`, `A <r> <c>`, `R <r> <c> <H|M>`). -/
inductive Msg where
  | ready (tok : Nat)
  | attack (r c : Nat)
  | result (r c : Nat) (hit : Bool)
deriving DecidableEq, Repr

/-- `nState` enum from main.c. -/
inductive NState where
  | IDLE | WAIT_READY | DECIDE | MY_TURN | PEER_TURN | WAIT_RES | GAME_OVER
deriving DecidableEq, Repr

/-- `gState` enum from main.c. -/
inductive GState where
  | RESET | MAINMENU | SETTINGS | NEWGAME | PLACING | WAIT
  | MYTURN | WAITRES | ENEMYTURN | OVER
deriving DecidableEq, Repr

/-- The global game/protocol state of main.c that the handlers read and
write. `playerAttack` is `playerAttackBitmap` (the cells the player has been
attacked at), `enemyOccupied` is `enemyOccupiedBitmap` (confirmed enemy
hits); `pendingRow`/`pendingCol` are `int8_t` (−1 = no pending shot);
`playerRemaining`/`enemyRemaining` are `uint8_t`; the tokens and `resendTick`
are `uint16_t`. -/
structure GameState where
  playerOccupied : Bitmap
  playerAttack : Bitmap
  enemyOccupied : Bitmap
  enemyAttack : Bitmap
  playerRemaining : Nat
  enemyRemaining : Nat
  pendingRow : Int
  pendingCol : Int
  selfToken : Nat
  peerToken : Nat
  resendTick : Nat
  postReadyLeft : Nat
  selRow : Nat
  selCol : Nat
  ghostShipIdx : Nat
  ghostHorizontal : Bool
  nState : NState
  gState : GState

/-- Conversion of an `int8_t` value to the `uint8_t` parameter of
`tx_attack`. -/
def intToU8 (i : Int) : Nat := (i % 256).toNat

/-- `on_ready(tok)`: record the peer token; advance `NS_WAIT_READY` to
`NS_DECIDE`. -/
def on_ready (tok : Nat) (s : GameState) : GameState :=
  { s with
    peerToken := tok
    nState := if s.nState = NState.WAIT_READY then NState.DECIDE else s.nState }

/-- `on_attack(r, c)` (main.c lines 156-192): bounds check, mark the cell
attacked, compute the hit from the (immutable) own occupancy, and reply with
`R r c hit` in every branch. On a first-time hit `playerRemaining` is
decremented (`uint8_t`, so modelled with wraparound) and reaching zero ends
the game; a duplicate attack only repeats the reply. -/
def on_attack (r c : Nat) (s : GameState) : GameState × List Msg :=
  if GRID_ROWS ≤ r ∨ GRID_COLS ≤ c then (s, [])
  else
    let first_time := !BITMAP_GET s.playerAttack r c
    let pa := BITMAP_SET s.playerAttack r c
    let hit := BITMAP_GET s.playerOccupied r c
    if first_time then
      let pr := if hit then (s.playerRemaining + 255) % 256 else s.playerRemaining
      if hit && pr == 0 then
        ({ s with playerAttack := pa, playerRemaining := pr,
                  nState := NState.GAME_OVER, gState := GState.OVER },
         [Msg.result r c hit])
      else
        ({ s with playerAttack := pa, playerRemaining := pr,
                  nState := NState.MY_TURN, gState := GState.MYTURN },
         [Msg.result r c hit])
    else
      ({ s with playerAttack := pa }, [Msg.result r c hit])

/-- `on_result(r, c, hit)` (main.c lines 197-228): ignore a stray result when
no shot is pending; otherwise clear the pending shot, on a hit mark the
enemy-occupied bitmap and decrement `enemyRemaining` (`uint8_t` wraparound),
and move to game over or to the peer's turn. -/
def on_result (r c : Nat) (hit : Bool) (s : GameState) : GameState :=
  if s.pendingRow < 0 then s
  else
    let s1 := { s with pendingRow := -1, pendingCol := -1 }
    let s2 := if hit then { s1 with enemyOccupied := BITMAP_SET s1.enemyOccupied r c } else s1
    let er := if hit then (s2.enemyRemaining + 255) % 256 else s2.enemyRemaining
    if hit && er == 0 then
      { s2 with enemyRemaining := er, nState := NState.GAME_OVER, gState := GState.OVER }
    else
      { s2 with enemyRemaining := er, nState := NState.PEER_TURN, gState := GState.ENEMYTURN }

/-! ### Line parsing (main.c `parse_line`, lines 233-248)

`sscanf`-style scanning: a `%u`/`%hhu` conversion skips leading whitespace
and consumes a nonempty digit run; a literal space in the format skips any
whitespace; `%c` consumes exactly the next character. Values are reduced
modulo the destination width (`uint16_t` for the token, `uint8_t` for
coordinates). -/

def skipSpaces : List Char → List Char
  | [] => []
  | ch :: rest => if ch.isWhitespace then skipSpaces rest else ch :: rest

def takeDigits : List Char → List Char × List Char
  | [] => ([], [])
  | ch :: rest =>
    if ch.isDigit then
      let (d, r) := takeDigits rest
      (ch :: d, r)
    else ([], ch :: rest)

def digitsVal (ds : List Char) : Nat :=
  ds.foldl (fun acc ch => acc * 10 + (ch.toNat - '0'.toNat)) 0

/-- One numeric conversion: skip whitespace, read a nonempty digit run. -/
def scanNat (cs : List Char) : Option (Nat × List Char) :=
  let cs1 := skipSpaces cs
  let (ds, rest) := takeDigits cs1
  if ds.isEmpty then none else some (digitsVal ds, rest)

/-- `parse_line(l)`: dispatch on `strncmp(l, "READY", 5)`, then `l[0] == 'A'`,
then `l[0] == 'R'`; malformed lines are dropped silently. -/
def parse_line (l : String) (s : GameState) : GameState × List Msg :=
  if l.toList.take 5 = ['R', 'E', 'A', 'D', 'Y'] then
    match scanNat (l.toList.drop 5) with
    | some (t, _) => (on_ready (t % 65536) s, [])
    | none => (s, [])
  else if l.toList.head? = some 'A' then
    match scanNat (l.toList.drop 1) with
    | some (r, cs1) =>
      match scanNat cs1 with
      | some (c, _) => on_attack (r % 256) (c % 256) s
      | none => (s, [])
    | none => (s, [])
  else if l.toList.head? = some 'R' then
    match scanNat (l.toList.drop 1) with
    | some (r, cs1) =>
      match scanNat cs1 with
      | some (c, cs2) =>
        match skipSpaces cs2 with
        | h :: _ => (on_result (r % 256) (c % 256) (h = 'H') s, [])
        | [] => (s, [])
      | none => (s, [])
    | none => (s, [])
  else (s, [])

/-! ### Reset and tick handlers (main.c) -/

/-- `handle_reset()` (main.c lines 304-317): `board_reset()` (all bitmaps and
both remaining counters cleared), placement state reset, protocol state
cleared, back to the main menu. (`pendingRow`/`pendingCol` are *not*
cleared by `handle_reset`.) -/
def handle_reset (s : GameState) : GameState :=
  { s with
    playerOccupied := emptyBitmap
    playerAttack := emptyBitmap
    enemyOccupied := emptyBitmap
    enemyAttack := emptyBitmap
    playerRemaining := 0
    enemyRemaining := 0
    ghostShipIdx := 0
    ghostHorizontal := true
    selRow := GRID_ROWS / 2
    selCol := GRID_ROWS / 2
    nState := NState.IDLE
    peerToken := 0
    resendTick := 0
    postReadyLeft := 0
    gState := GState.MAINMENU }

/-- `handle_wait_peer()` (main.c lines 509-543): when `nState == NS_DECIDE`
and a nonzero peer token is known, the side with the strictly larger token
starts; `enemyRemaining` is set to the sum of `SHIP_LENGTHS` (a `uint8_t`
total); the cursor is recentered, and a 2000-tick post-ready grace window is
armed with the cadence counter cleared. -/
def handle_wait_peer (s : GameState) : GameState :=
  if s.nState = NState.DECIDE ∧ s.peerToken ≠ 0 then
    let iStart := s.peerToken < s.selfToken
    let total := (SHIP_LENGTHS.foldl (· + ·) 0) % 256
    { s with
      enemyRemaining := total
      nState := if iStart then NState.MY_TURN else NState.PEER_TURN
      gState := if iStart then GState.MYTURN else GState.ENEMYTURN
      selRow := GRID_ROWS / 2
      selCol := GRID_COLS / 2
      postReadyLeft := 2000
      resendTick := 0 }
  else s

/-- `net_tick()` (main.c lines 258-298) on a tick with no inbound UART
traffic (the RX drain loop body does not run). Each `++resendTick` is a
`uint16_t` pre-increment, so the stored and compared value is reduced mod
65536; the READY branch only increments when `needReady` holds
(short-circuit `&&`). The `NS_PEER_TURN` branch compares against 120000 and
calls `handle_reset` when it fires. -/
def net_tick_noinput (s : GameState) : GameState × List Msg :=
  -- READY retransmission
  let needReady := s.nState = NState.WAIT_READY ∨ 0 < s.postReadyLeft
  let step1 : GameState × List Msg :=
    if needReady then
      let t := (s.resendTick + 1) % 65536
      if 500 ≤ t then ({ s with resendTick := 0 }, [Msg.ready s.selfToken])
      else ({ s with resendTick := t }, [])
    else (s, [])
  let s1 := step1.1
  -- Attack retransmission
  let step2 : GameState × List Msg :=
    if s1.nState = NState.WAIT_RES then
      let t := (s1.resendTick + 1) % 65536
      if 100 ≤ t then
        ({ s1 with resendTick := 0 },
         [Msg.attack (intToU8 s1.pendingRow) (intToU8 s1.pendingCol)])
      else ({ s1 with resendTick := t }, [])
    else (s1, [])
  let s2 := step2.1
  -- Peer timeout while waiting for their move
  let s3 :=
    if s2.nState = NState.PEER_TURN then
      let t := (s2.resendTick + 1) % 65536
      if 120000 ≤ t then handle_reset { s2 with resendTick := t }
      else { s2 with resendTick := t }
    else s2
  -- Decrease post-ready extra countdown
  let s4 := if 0 < s3.postReadyLeft then { s3 with postReadyLeft := s3.postReadyLeft - 1 } else s3
  (s4, step1.2 ++ step2.2)

/-- Run `n` consecutive `net_tick` calls with no inbound traffic,
accumulating the transmitted messages in order. -/
def run_net : Nat → GameState → GameState × List Msg
  | 0, s => (s, [])
  | n + 1, s =>
    let st := net_tick_noinput s
    let rest := run_net n st.1
    (rest.1, st.2 ++ rest.2)

/-- Number of `Attack` retransmissions in a message list. -/
def countAttacks (ms : List Msg) : Nat :=
  ms.countP (fun m => match m with | Msg.attack _ _ => true | _ => false)

/-! ### AI opponent (singleplayer.c) -/

/-- The AI's 4-slot circular line queue (`qbuf`, `qhead`, `qtail`). `qhead`
and `qtail` are `uint8_t` indices kept below `QCAP = 4` by the modulo
arithmetic of the operations. -/
structure SPQueue where
  qbuf : Nat → String
  qhead : Nat
  qtail : Nat

/-- `strncpy(dst, s, 31); dst[31] = 0`: at most 31 characters are stored. -/
def trunc31 (s : String) : String := String.mk (s.toList.take 31)

/-- `q_full()`: `(uint8_t)(qhead + 1) % QCAP == qtail`. -/
def q_full (q : SPQueue) : Bool := (q.qhead + 1) % 4 == q.qtail

/-- `q_empty()`: `qhead == qtail`. -/
def q_empty (q : SPQueue) : Bool := q.qhead == q.qtail

/-- `q_push(s)` (singleplayer.c lines 23-29): drop the line when the queue is
full, otherwise store (truncated) at `qhead` and advance `qhead` mod 4. -/
def q_push (q : SPQueue) (s : String) : SPQueue :=
  if q_full q then q
  else
    { qbuf := fun i => if i = q.qhead then trunc31 s else q.qbuf i
      qhead := (q.qhead + 1) % 4
      qtail := q.qtail }

/-- Number of lines currently queued (for `qhead`, `qtail` in `[0, 4)`). -/
def qcount (q : SPQueue) : Nat := (q.qhead + 4 - q.qtail) % 4

/-- The queue after `sp_reset()`: `qhead = qtail = 0`. -/
def emptyQueue : SPQueue := { qbuf := fun _ => "", qhead := 0, qtail := 0 }

/-- All 100 grid cells in the row-major order of the nested
`for (y) for (x)` scan loops of singleplayer.c. -/
def allCells : List (Nat × Nat) :=
  (List.range GRID_ROWS).flatMap fun y => (List.range GRID_COLS).map fun x => (y, x)

/-- The unattacked player ship squares, in row-major scan order
(`BITMAP_GET(playerOccupiedBitmap, y, x) && !BITMAP_GET(playerAttackedAtBitmap, y, x)`). -/
def eligibleShip (occ att : Bitmap) : List (Nat × Nat) :=
  allCells.filter fun p => BITMAP_GET occ p.1 p.2 && !BITMAP_GET att p.1 p.2

/-- The unattacked player ocean squares, in row-major scan order
(`!BITMAP_GET(playerOccupiedBitmap, y, x) && !BITMAP_GET(playerAttackedAtBitmap, y, x)`). -/
def eligibleOcean (occ att : Bitmap) : List (Nat × Nat) :=
  allCells.filter fun p => !BITMAP_GET occ p.1 p.2 && !BITMAP_GET att p.1 p.2

/-- `find_random_ship_square` (singleplayer.c lines 104-131): when
`playerRemaining == 0` the out-parameters are left unchanged (`none`);
otherwise `hit_index = rand_int(0, playerRemaining - 1)` and the row-major
scan returns the `hit_index`-th unattacked ship square (`none` again when the
scan runs out before reaching `hit_index`). `rng` is the `rand16()` draw
inside `rand_int`; the `player_ship_squares_attacked` bump is bookkeeping for
the ocean-square count and is tracked by the caller model. -/
def find_random_ship_square (occ att : Bitmap) (playerRemaining rng : Nat) :
    Option (Nat × Nat) :=
  if playerRemaining = 0 then none
  else (eligibleShip occ att)[rand_int 0 (playerRemaining - 1) rng]?

/-- `find_random_ocean_square` (singleplayer.c lines 137-169):
`player_ocean_squares_left = GRID_CELLS - (pssa + playerRemaining + posa)`
in `uint16_t` arithmetic; when zero, fall back to a ship square, else index
the row-major ocean squares at `rand_int(0, left - 1)`. -/
def find_random_ocean_square (occ att : Bitmap)
    (playerRemaining pssa posa rng : Nat) : Option (Nat × Nat) :=
  let left := (GRID_CELLS + 65536 - (pssa + playerRemaining + posa) % 65536) % 65536
  if left = 0 then find_random_ship_square occ att playerRemaining rng
  else (eligibleOcean occ att)[rand_int 0 (left - 1) rng]?

/-- `ai_attack_algorithm` (singleplayer.c lines 175-197), parameterized on
the outcome `coin` of the difficulty-biased `rand_bool(probability_of_hit)`
draw: `true` picks a random unattacked ship square, `false` a random
unattacked ocean square. `none` models out-parameters left at the caller's
initial `(0, 0)`. -/
def ai_attack_algorithm (coin : Bool) (occ att : Bitmap)
    (playerRemaining pssa posa rng : Nat) : Option (Nat × Nat) :=
  if coin then find_random_ship_square occ att playerRemaining rng
  else find_random_ocean_square occ att playerRemaining pssa posa rng

/-! ### Concrete states used by witnesses and counterexamples -/

/-- A fresh post-reset game state (all bitmaps empty, nothing pending). -/
def initGameState : GameState :=
  { playerOccupied := emptyBitmap
    playerAttack := emptyBitmap
    enemyOccupied := emptyBitmap
    enemyAttack := emptyBitmap
    playerRemaining := 17
    enemyRemaining := 0
    pendingRow := -1
    pendingCol := -1
    selfToken := 0
    peerToken := 0
    resendTick := 0
    postReadyLeft := 0
    selRow := 5
    selCol := 5
    ghostShipIdx := 5
    ghostHorizontal := true
    nState := NState.IDLE
    gState := GState.MAINMENU }

/-- A state in the decide step: both tokens known, 100 (self) vs 50 (peer). -/
def decideState : GameState :=
  { initGameState with
    nState := NState.DECIDE
    gState := GState.WAIT
    selfToken := 100
    peerToken := 50 }

/-- A state waiting for the peer's READY with a partially elapsed cadence. -/
def waitReadyState : GameState :=
  { initGameState with
    nState := NState.WAIT_READY
    gState := GState.WAIT
    resendTick := 7 }

/-- A `WaitResult` state entered during the post-decide READY grace window
(`postReadyLeft = 2000` as armed by `handle_wait_peer`), with a pending shot
at (3,4) just transmitted (`resendTick = 0`). -/
def waitResGraceState : GameState :=
  { initGameState with
    nState := NState.WAIT_RES
    gState := GState.WAITRES
    pendingRow := 3
    pendingCol := 4
    postReadyLeft := 2000
    resendTick := 0
    enemyRemaining := 17 }

/-- A `WaitResult` state with the grace window expired and a pending shot at
(3,4) just transmitted. -/
def waitResCleanState : GameState :=
  { waitResGraceState with postReadyLeft := 0 }

/-- A state waiting for the peer's move. -/
def peerTurnState : GameState :=
  { initGameState with
    nState := NState.PEER_TURN
    gState := GState.ENEMYTURN
    enemyRemaining := 17
    resendTick := 0 }

/-- A player board with a single ship segment at (2,3). -/
def oneShipBitmap : Bitmap := BITMAP_SET emptyBitmap 2 3

/-! ### Basic bitmap lemmas -/

theorem lor_lor_self (x m : Nat) : (x ||| m) ||| m = x ||| m := by
  apply Nat.eq_of_testBit_eq
  intro i
  simp [Nat.testBit_or, Bool.or_assoc]

theorem lor_pow_and_pow (x k : Nat) : ((x ||| 2 ^ k) &&& 2 ^ k) = 2 ^ k := by
  apply Nat.eq_of_testBit_eq
  intro i
  simp only [Nat.testBit_and, Nat.testBit_or]
  by_cases h : k = i
  · subst h; simp [Nat.testBit_two_pow_self]
  · have : (2 ^ k).testBit i = false := by
      simp [Nat.testBit_two_pow]; exact h
    simp [this]

theorem BITMAP_GET_SET_self (bm : Bitmap) (r c : Nat) :
    BITMAP_GET (BITMAP_SET bm r c) r c = true := by
  unfold BITMAP_GET BITMAP_SET bit_mask
  simp only [if_pos rfl, if_true, eq_self_iff_true]
  rw [lor_pow_and_pow]
  simp [bne_iff_ne]

theorem BITMAP_SET_SET (bm : Bitmap) (r c : Nat) :
    BITMAP_SET (BITMAP_SET bm r c) r c = BITMAP_SET bm r c := by
  funext i
  unfold BITMAP_SET
  by_cases h : i = byte_index (grid_index r c) <;> simp [h, lor_lor_self]

/-! ### C1: ship_can_fit correctness -/

/-- C1: for every occupancy bitmap, every row and column in 0..9, every ship
length, and both orientations, `ship_can_fit` returns true iff all `len` cells
starting at `(row, col)` in the given direction lie inside the 10×10 grid and
none of them is occupied in the bitmap. -/
theorem ship_can_fit_iff (occ : Bitmap) (row col len : Nat) (horizontal : Bool)
    (hr : row < GRID_ROWS) (hc : col < GRID_COLS) :
    ship_can_fit occ row col len horizontal = true ↔
      ∀ k, k < len →
        (if horizontal then row else row + k) < GRID_ROWS ∧
        (if horizontal then col + k else col) < GRID_COLS ∧
        BITMAP_GET occ (if horizontal then row else row + k)
          (if horizontal then col + k else col) = false := by
  have hR : GRID_ROWS = 10 := rfl
  have hC : GRID_COLS = 10 := rfl
  cases horizontal with
  | true =>
    simp only [ship_can_fit, if_true]
    by_cases hb : col + len > GRID_COLS
    · simp only [if_pos hb]
      constructor
      · intro h; exact absurd h (by simp)
      · intro h
        exfalso
        rcases Nat.exists_eq_add_of_lt (show 0 < len by omega) with ⟨m, hm⟩
        have := h (len - 1) (by omega)
        omega
    · simp only [if_neg hb, List.all_eq_true, List.mem_range]
      constructor
      · intro h k hk
        refine ⟨hr, by omega, ?_⟩
        have := h k hk
        simpa using this
      · intro h k hk
        have := (h k hk).2.2
        simpa using this
  | false =>
    simp only [ship_can_fit, if_false, Bool.false_eq_true]
    by_cases hb : row + len > GRID_ROWS
    · simp only [if_pos hb]
      constructor
      · intro h; exact absurd h (by simp)
      · intro h
        exfalso
        have := h (len - 1) (by omega)
        omega
    · simp only [if_neg hb, List.all_eq_true, List.mem_range]
      constructor
      · intro h k hk
        refine ⟨by omega, hc, ?_⟩
        have := h k hk
        simpa using this
      · intro h k hk
        have := (h k hk).2.2
        simpa using this

/-- Witness for `ship_can_fit_iff` at a concrete input: the empty bitmap, a
length-5 ship at (0,0) horizontally. -/
theorem ship_can_fit_iff_witness :
    ship_can_fit emptyBitmap 0 0 5 true = true ↔
      ∀ k, k < 5 →
        (if true then 0 else 0 + k) < GRID_ROWS ∧
        (if true then 0 + k else 0) < GRID_COLS ∧
        BITMAP_GET emptyBitmap (if true then 0 else 0 + k)
          (if true then 0 + k else 0) = false :=
  ship_can_fit_iff emptyBitmap 0 0 5 true (by decide) (by decide)

/-! ### C10: the LFSR state is never zero -/

theorem rand16_step_lt (s : Nat) : rand16_step s < 65536 := by
  unfold rand16_step
  exact Nat.mod_lt _ (by decide)

theorem rand16_step_ne_zero (s : Nat) (hlt : s < 65536) (hnz : s ≠ 0) :
    rand16_step s ≠ 0 := by
  unfold rand16_step
  by_cases hpar : s % 2 = 1
  · simp only [if_pos hpar]
    have hdiv : s / 2 < 2 ^ 15 := by omega
    have hxor : (s / 2) ^^^ 0xB400 < 65536 := by
      have h1 : s / 2 < 2 ^ 16 := by omega
      have h2 : (0xB400 : Nat) < 2 ^ 16 := by decide
      exact Nat.xor_lt_two_pow h1 h2
    rw [Nat.mod_eq_of_lt hxor]
    intro hz
    have htb : ((s / 2) ^^^ 0xB400).testBit 15 = true := by
      rw [Nat.testBit_xor]
      have hlo : (s / 2).testBit 15 = false := Nat.testBit_lt_two_pow hdiv
      have hhi : (0xB400 : Nat).testBit 15 = true := by decide
      rw [hlo, hhi]
      rfl
    rw [hz] at htb
    simp [Nat.zero_testBit] at htb
  · simp only [if_neg hpar, Nat.xor_zero]
    have h2 : s % 2 = 0 := by omega
    have hge : 2 ≤ s := by
      rcases Nat.lt_or_ge s 2 with h | h
      · interval_cases s <;> omega
      · exact h
    have : 1 ≤ s / 2 := Nat.le_div_iff_mul_le (by decide) |>.mpr (by omega)
    have hlt2 : s / 2 < 65536 := by omega
    rw [Nat.mod_eq_of_lt hlt2]
    omega

theorem srand16_ne_zero (seed : Nat) : srand16 seed ≠ 0 ∧ srand16 seed < 65536 := by
  unfold srand16
  by_cases h : seed % 65536 = 0
  · simp [h]
  · simp only [if_neg h]
    exact ⟨h, Nat.mod_lt _ (by decide)⟩

/-- C10: for every seed, `srand16` leaves the LFSR state nonzero (a zero seed
is replaced by the default `0xACE1`), and `rand16` maps every nonzero 16-bit
state to a nonzero state; hence after any number of `rand16` steps the state —
and thus the output stream, which equals the successive states — is never
zero. (`n = 0` is the seeded state itself.) -/
theorem lfsr_state_never_zero (seed n : Nat) :
    rand16_step^[n] (srand16 seed) ≠ 0 ∧ rand16_step^[n] (srand16 seed) < 65536 := by
  induction n with
  | zero => simpa using srand16_ne_zero seed
  | succ m ih =>
    rw [Function.iterate_succ_apply']
    exact ⟨rand16_step_ne_zero _ ih.2 ih.1, rand16_step_lt _⟩

/-! ### Helper lemmas about on_attack -/

theorem on_attack_snd (r c : Nat) (s : GameState)
    (hr : r < GRID_ROWS) (hc : c < GRID_COLS) :
    (on_attack r c s).2 = [Msg.result r c (BITMAP_GET s.playerOccupied r c)] := by
  have hg : ¬(GRID_ROWS ≤ r ∨ GRID_COLS ≤ c) := by
    push_neg; exact ⟨hr, hc⟩
  unfold on_attack
  rw [if_neg hg]
  by_cases hfa : BITMAP_GET s.playerAttack r c <;> simp [hfa] <;> split <;> (try split) <;> rfl

theorem on_attack_playerOccupied (r c : Nat) (s : GameState) :
    (on_attack r c s).1.playerOccupied = s.playerOccupied := by
  unfold on_attack
  split
  · rfl
  · by_cases hfa : BITMAP_GET s.playerAttack r c <;> simp [hfa] <;> split <;> (try split) <;> rfl

theorem on_attack_playerAttack (r c : Nat) (s : GameState)
    (hr : r < GRID_ROWS) (hc : c < GRID_COLS) :
    (on_attack r c s).1.playerAttack = BITMAP_SET s.playerAttack r c := by
  have hg : ¬(GRID_ROWS ≤ r ∨ GRID_COLS ≤ c) := by
    push_neg; exact ⟨hr, hc⟩
  unfold on_attack
  rw [if_neg hg]
  by_cases hfa : BITMAP_GET s.playerAttack r c <;> simp [hfa] <;> split <;> (try split) <;> rfl

theorem on_attack_already_attacked (r c : Nat) (s : GameState)
    (hr : r < GRID_ROWS) (hc : c < GRID_COLS)
    (h : BITMAP_GET s.playerAttack r c = true) :
    (on_attack r c s).1 = { s with playerAttack := BITMAP_SET s.playerAttack r c } := by
  have hg : ¬(GRID_ROWS ≤ r ∨ GRID_COLS ≤ c) := by
    push_neg; exact ⟨hr, hc⟩
  unfold on_attack
  rw [if_neg hg]
  simp [h]

theorem on_attack_remaining (r c : Nat) (s : GameState) :
    (on_attack r c s).1.playerRemaining = s.playerRemaining ∨
    (on_attack r c s).1.playerRemaining = (s.playerRemaining + 255) % 256 := by
  unfold on_attack
  split
  · exact Or.inl rfl
  · by_cases hfa : BITMAP_GET s.playerAttack r c <;>
      by_cases hocc : BITMAP_GET s.playerOccupied r c <;>
      simp [hfa, hocc]
    split <;> simp

/-! ### C2: delivering the same Attack twice -/

/-- C2: with the own occupancy fixed, for every in-range coordinate, a second
delivery of `Attack(r,c)` produces the same `Result(r,c,hit)` reply as the
first, the second delivery leaves the whole state unchanged (no phase,
net-state, counter or bitmap change), and across both deliveries
`playerRemaining` is decremented at most once (the only two possible values
after both deliveries are the original and the once-decremented one). -/
theorem on_attack_duplicate_idempotent (s : GameState) (r c : Nat)
    (hr : r < GRID_ROWS) (hc : c < GRID_COLS) :
    (on_attack r c s).2 = [Msg.result r c (BITMAP_GET s.playerOccupied r c)] ∧
    (on_attack r c (on_attack r c s).1).2 = (on_attack r c s).2 ∧
    (on_attack r c (on_attack r c s).1).1 = (on_attack r c s).1 ∧
    ((on_attack r c s).1.playerRemaining = s.playerRemaining ∨
     (on_attack r c s).1.playerRemaining = (s.playerRemaining + 255) % 256) := by
  set s1 := (on_attack r c s).1 with hs1
  have hpa : s1.playerAttack = BITMAP_SET s.playerAttack r c :=
    on_attack_playerAttack r c s hr hc
  have hpo : s1.playerOccupied = s.playerOccupied :=
    on_attack_playerOccupied r c s
  have hget : BITMAP_GET s1.playerAttack r c = true := by
    rw [hpa]; exact BITMAP_GET_SET_self _ r c
  refine ⟨on_attack_snd r c s hr hc, ?_, ?_, on_attack_remaining r c s⟩
  · rw [on_attack_snd r c s1 hr hc, on_attack_snd r c s hr hc, hpo]
  · rw [on_attack_already_attacked r c s1 hr hc hget, hpa, BITMAP_SET_SET, ← hpa]

/-- Witness for `on_attack_duplicate_idempotent` at a concrete input. -/
theorem on_attack_duplicate_idempotent_witness :
    (on_attack 2 3 initGameState).2 =
      [Msg.result 2 3 (BITMAP_GET initGameState.playerOccupied 2 3)] ∧
    (on_attack 2 3 (on_attack 2 3 initGameState).1).2 = (on_attack 2 3 initGameState).2 ∧
    (on_attack 2 3 (on_attack 2 3 initGameState).1).1 = (on_attack 2 3 initGameState).1 ∧
    ((on_attack 2 3 initGameState).1.playerRemaining = initGameState.playerRemaining ∨
     (on_attack 2 3 initGameState).1.playerRemaining =
       (initGameState.playerRemaining + 255) % 256) :=
  on_attack_duplicate_idempotent initGameState 2 3 (by decide) (by decide)

/-! ### C3: a stray Result with no pending shot is a no-op -/

/-- C3: whenever no shot is pending (`pendingRow < 0`), `on_result` leaves
the whole state — `enemyRemaining`, both enemy-board bitmaps, the game phase
and the network state — unchanged. -/
theorem on_result_no_pending_noop (r c : Nat) (hit : Bool) (s : GameState)
    (h : s.pendingRow < 0) :
    on_result r c hit s = s := by
  unfold on_result
  rw [if_pos h]

/-- Witness for `on_result_no_pending_noop` at a concrete input. -/
theorem on_result_no_pending_noop_witness :
    on_result 4 7 true initGameState = initGameState :=
  on_result_no_pending_noop 4 7 true initGameState (by decide)

/-! ### C4: the decide step -/

/-- C4 counterexample: with tokens 100 (self) vs 50 (peer) the decide step
does give the token-100 side the first turn, but it sets the opponent's
`remaining_cells` to 17 — the sum of the canonical ship lengths
`[5,4,3,3,2]` — and not to 20 as the claim states. -/
theorem handle_wait_peer_not_twenty :
    (handle_wait_peer decideState).nState = NState.MY_TURN ∧
    (handle_wait_peer decideState).enemyRemaining =
      (SHIP_LENGTHS.foldl (· + ·) 0) % 256 ∧
    (handle_wait_peer decideState).enemyRemaining = 17 ∧
    (handle_wait_peer decideState).enemyRemaining ≠ 20 :=
  ⟨rfl, rfl, rfl, by decide⟩

/-- C4 (amended): in the waiting-for-peer phase with both tokens known, the
decide step assigns the first turn to the local side exactly when its own
token is strictly larger than the peer's, and sets the opponent's
`remaining_cells` counter to 17, the sum of the canonical ship lengths
`[5,4,3,3,2]`. -/
theorem handle_wait_peer_decide (s : GameState)
    (hn : s.nState = NState.DECIDE) (hp : s.peerToken ≠ 0) :
    (handle_wait_peer s).enemyRemaining = (SHIP_LENGTHS.foldl (· + ·) 0) % 256 ∧
    (handle_wait_peer s).enemyRemaining = 17 ∧
    ((handle_wait_peer s).nState = NState.MY_TURN ↔ s.peerToken < s.selfToken) ∧
    ((handle_wait_peer s).nState = NState.PEER_TURN ↔ ¬ s.peerToken < s.selfToken) ∧
    ((handle_wait_peer s).gState = GState.MYTURN ↔ s.peerToken < s.selfToken) := by
  unfold handle_wait_peer
  rw [if_pos ⟨hn, hp⟩]
  by_cases h : s.peerToken < s.selfToken <;> simp [h] <;> decide

/-- Witness for `handle_wait_peer_decide` at the concrete 100-vs-50 state. -/
theorem handle_wait_peer_decide_witness :
    (handle_wait_peer decideState).enemyRemaining =
      (SHIP_LENGTHS.foldl (· + ·) 0) % 256 ∧
    (handle_wait_peer decideState).enemyRemaining = 17 ∧
    ((handle_wait_peer decideState).nState = NState.MY_TURN ↔
      decideState.peerToken < decideState.selfToken) ∧
    ((handle_wait_peer decideState).nState = NState.PEER_TURN ↔
      ¬ decideState.peerToken < decideState.selfToken) ∧
    ((handle_wait_peer decideState).gState = GState.MYTURN ↔
      decideState.peerToken < decideState.selfToken) :=
  handle_wait_peer_decide decideState rfl (by decide)

/-! ### C6: parsed inbound lines and the cadence counters -/

theorem on_attack_preserves_cadence (r c : Nat) (s : GameState) :
    (on_attack r c s).1.resendTick = s.resendTick ∧
    (on_attack r c s).1.postReadyLeft = s.postReadyLeft := by
  unfold on_attack
  split
  · exact ⟨rfl, rfl⟩
  · by_cases hfa : BITMAP_GET s.playerAttack r c <;>
      by_cases hocc : BITMAP_GET s.playerOccupied r c <;>
      simp [hfa, hocc] <;> split <;> simp

theorem on_result_preserves_cadence (r c : Nat) (hit : Bool) (s : GameState) :
    (on_result r c hit s).resendTick = s.resendTick ∧
    (on_result r c hit s).postReadyLeft = s.postReadyLeft := by
  unfold on_result
  split
  · exact ⟨rfl, rfl⟩
  · cases hit <;> simp <;> split <;> simp

/-- C6 counterexample: in a `WAIT_READY` state with the shared cadence
counter `resendTick = 7`, the line `READY 5` is successfully parsed (the peer
token is recorded and the net state advances to `DECIDE`), yet the cadence
counter is left at 7 — it is not reset to zero by the parsed line. -/
theorem parse_line_cadence_counterexample :
    (parse_line "READY 5" waitReadyState).1.peerToken = 5 ∧
    (parse_line "READY 5" waitReadyState).1.nState = NState.DECIDE ∧
    (parse_line "READY 5" waitReadyState).1.resendTick = 7 ∧
    (parse_line "READY 5" waitReadyState).1.resendTick ≠ 0 :=
  ⟨rfl, rfl, rfl, by decide⟩

/-- C6 (amended): a successfully parsed inbound line never changes the
retry-cadence counters: for every line and every state, `parse_line` leaves
the shared retransmission/timeout counter `resendTick` and the post-ready
countdown unchanged (the counters are reset only by the state-transition
actions themselves and by a cadence firing inside `net_tick`). -/
theorem parse_line_preserves_cadence (l : String) (s : GameState) :
    (parse_line l s).1.resendTick = s.resendTick ∧
    (parse_line l s).1.postReadyLeft = s.postReadyLeft := by
  unfold parse_line
  split
  · split
    · exact ⟨rfl, rfl⟩
    · exact ⟨rfl, rfl⟩
  · split
    · split
      · split
        · exact on_attack_preserves_cadence _ _ s
        · exact ⟨rfl, rfl⟩
      · exact ⟨rfl, rfl⟩
    · split
      · split
        · split
          · split
            · exact on_result_preserves_cadence _ _ _ s
            · exact ⟨rfl, rfl⟩
          · exact ⟨rfl, rfl⟩
        · exact ⟨rfl, rfl⟩
      · exact ⟨rfl, rfl⟩

/-! ### C7: Attack retransmission cadence in WaitResult -/

theorem net_tick_waitres_fire (s : GameState)
    (hn : s.nState = NState.WAIT_RES) (hp : s.postReadyLeft = 0)
    (h99 : s.resendTick = 99) :
    net_tick_noinput s =
      ({ s with resendTick := 0 },
       [Msg.attack (intToU8 s.pendingRow) (intToU8 s.pendingCol)]) := by
  unfold net_tick_noinput
  simp [hn, hp, h99]

theorem net_tick_waitres_nofire (s : GameState)
    (hn : s.nState = NState.WAIT_RES) (hp : s.postReadyLeft = 0)
    (hlt : s.resendTick + 1 < 100) :
    net_tick_noinput s = ({ s with resendTick := s.resendTick + 1 }, []) := by
  unfold net_tick_noinput
  have hmod : (s.resendTick + 1) % 65536 = s.resendTick + 1 :=
    Nat.mod_eq_of_lt (by omega)
  simp [hn, hp, hmod, Nat.not_le.mpr hlt]

theorem waitres_run_count (k : Nat) :
    ∀ s : GameState, s.nState = NState.WAIT_RES → s.postReadyLeft = 0 →
      s.resendTick + k = 100 → s.resendTick ≤ 99 →
      countAttacks (run_net k s).2 = 1 := by
  induction k with
  | zero =>
    intro s _ _ hsum hle
    omega
  | succ m ih =>
    intro s hn hp hsum hle
    by_cases hfire : s.resendTick = 99
    · have hm : m = 0 := by omega
      subst hm
      rw [show (0 + 1 : Nat) = 1 from rfl]
      simp only [run_net, net_tick_waitres_fire s hn hp hfire]
      rfl
    · have hlt : s.resendTick + 1 < 100 := by omega
      have hstep := net_tick_waitres_nofire s hn hp hlt
      simp only [run_net, hstep]
      have hrec := ih { s with resendTick := s.resendTick + 1 } hn hp
        (by simp; omega) (by simp; omega)
      simpa [countAttacks] using hrec

/-- C7 counterexample: from the reachable `WaitResult` state entered while
the post-decide READY grace window is still open (`postReadyLeft = 2000`),
100 ticks with no inbound traffic emit TWO retransmissions of the pending
`Attack`, not one: the READY branch and the Attack branch each pre-increment
the shared `resendTick`, so it advances by 2 per tick and reaches 100 twice
within the window. -/
theorem waitres_double_retransmission :
    countAttacks (run_net 100 waitResGraceState).2 = 2 := by decide

/-- C7 (amended): from a `WaitResult` state with a pending attack whose
cadence counter has just been cleared by the transmission (`resendTick = 0`)
and with the post-decide READY grace window expired (`postReadyLeft = 0`),
if no inbound message arrives for 100 consecutive ticks then exactly one
retransmission of the pending `Attack` is emitted during those 100 ticks. -/
theorem waitres_single_retransmission (s : GameState)
    (hn : s.nState = NState.WAIT_RES) (hp : s.postReadyLeft = 0)
    (ht : s.resendTick = 0) :
    countAttacks (run_net 100 s).2 = 1 :=
  waitres_run_count 100 s hn hp (by omega) (by omega)

/-- Witness for `waitres_single_retransmission` at the concrete clean
`WaitResult` state. -/
theorem waitres_single_retransmission_witness :
    countAttacks (run_net 100 waitResCleanState).2 = 1 :=
  waitres_single_retransmission waitResCleanState rfl rfl rfl

/-! ### C8: the 2-minute peer timeout -/

theorem net_tick_peer_turn (s : GameState) (hn : s.nState = NState.PEER_TURN) :
    (net_tick_noinput s).1.nState = NState.PEER_TURN ∧
    (net_tick_noinput s).1.gState = s.gState ∧
    (net_tick_noinput s).1.peerToken = s.peerToken := by
  unfold net_tick_noinput
  have h1 : ∀ x : Nat, ¬ 120000 ≤ (x + 1) % 65536 := by
    intro x
    have := Nat.mod_lt (x + 1) (show 0 < 65536 by decide)
    omega
  by_cases hpr : 0 < s.postReadyLeft <;>
    by_cases h5 : 500 ≤ (s.resendTick + 1) % 65536 <;>
      simp [hn, hpr, h5, h1]

/-- C8: while the network state is `PeerTurn`, the forced "peer lost" reset
never happens at all — not after 120000 quiet ticks, nor ever: `resendTick`
is a `uint16_t`, so the pre-incremented value compared against 120000 is
always below 65536 and the timeout branch is unreachable. After any number
of quiet ticks the net state is still `PeerTurn` and the game phase and
protocol state are untouched (`handle_reset` would set `nState := IDLE`,
`gState := MAINMENU` and clear `peerToken`). -/
theorem peer_timeout_never_fires (n : Nat) : ∀ s : GameState,
    s.nState = NState.PEER_TURN →
    (run_net n s).1.nState = NState.PEER_TURN ∧
    (run_net n s).1.gState = s.gState ∧
    (run_net n s).1.peerToken = s.peerToken := by
  induction n with
  | zero => intro s hn; exact ⟨hn, rfl, rfl⟩
  | succ m ih =>
    intro s hn
    have h1 := net_tick_peer_turn s hn
    have h2 := ih (net_tick_noinput s).1 h1.1
    simp only [run_net]
    exact ⟨h2.1, h2.2.1.trans h1.2.1, h2.2.2.trans h1.2.2⟩

/-- Witness for `peer_timeout_never_fires`: even after the claimed 120000
quiet ticks in `PeerTurn`, no reset has happened. -/
theorem peer_timeout_never_fires_witness :
    (run_net 120000 peerTurnState).1.nState = NState.PEER_TURN ∧
    (run_net 120000 peerTurnState).1.gState = peerTurnState.gState ∧
    (run_net 120000 peerTurnState).1.peerToken = peerTurnState.peerToken :=
  peer_timeout_never_fires 120000 peerTurnState rfl

/-! ### C5: AI targeting on the ship branch -/

theorem allCells_length : allCells.length = 100 := by decide

theorem eligibleShip_mem (occ att : Bitmap) (p : Nat × Nat)
    (h : p ∈ eligibleShip occ att) :
    BITMAP_GET occ p.1 p.2 = true ∧ BITMAP_GET att p.1 p.2 = false := by
  have := (List.mem_filter.mp h).2
  simp only [Bool.and_eq_true, Bool.not_eq_true'] at this
  exact this

/-- C5: whenever the biased coin drawn by the targeting algorithm comes up
true (as it always does with probability parameter 1.0) while at least one
player cell is both occupied and not yet attacked — with `playerRemaining`
equal to the number of such cells, which is the counter's maintained meaning —
the algorithm returns the coordinates of a cell that is occupied and
unattacked on the player's board. -/
theorem ai_targeting_ship_square (occ att : Bitmap) (pr pssa posa rng : Nat)
    (hcount : pr = (eligibleShip occ att).length) (hpos : 0 < pr) :
    ∃ r c, ai_attack_algorithm true occ att pr pssa posa rng = some (r, c) ∧
      BITMAP_GET occ r c = true ∧ BITMAP_GET att r c = false := by
  unfold ai_attack_algorithm find_random_ship_square
  rw [if_pos rfl, if_neg (by omega)]
  have hlen : (eligibleShip occ att).length ≤ 100 := by
    have h := List.length_filter_le
      (fun p : Nat × Nat => BITMAP_GET occ p.1 p.2 && !BITMAP_GET att p.1 p.2) allCells
    rw [allCells_length] at h
    exact h
  have hmod : rng % pr < pr := Nat.mod_lt rng hpos
  have hidx : rand_int 0 (pr - 1) rng = rng % pr := by
    unfold rand_int
    have h1 : pr - 1 - 0 + 1 = pr := by omega
    rw [h1, Nat.add_zero]
    exact Nat.mod_eq_of_lt (by omega)
  rw [hidx]
  have hget : rng % pr < (eligibleShip occ att).length := hcount ▸ hmod
  rw [List.getElem?_eq_getElem hget]
  have hmem : (eligibleShip occ att)[rng % pr] ∈ eligibleShip occ att :=
    List.getElem_mem hget
  have hprop := eligibleShip_mem occ att _ hmem
  exact ⟨_, _, rfl, hprop.1, hprop.2⟩

/-- Witness for `ai_targeting_ship_square`: a board with a single ship
segment at (2,3) and nothing attacked. -/
theorem ai_targeting_ship_square_witness :
    ∃ r c, ai_attack_algorithm true oneShipBitmap emptyBitmap 1 0 0 0 = some (r, c) ∧
      BITMAP_GET oneShipBitmap r c = true ∧ BITMAP_GET emptyBitmap r c = false :=
  ai_targeting_ship_square oneShipBitmap emptyBitmap 1 0 0 0 (by decide) (by decide)

/-! ### C9: the AI injection queue -/

theorem q_full_iff_qcount (q : SPQueue) (hh : q.qhead < 4) (ht : q.qtail < 4) :
    q_full q = true ↔ qcount q = 3 := by
  unfold q_full qcount
  have key : ∀ h < 4, ∀ t < 4, (((h + 1) % 4 == t) = true ↔ (h + 4 - t) % 4 = 3) := by
    decide
  exact key q.qhead hh q.qtail ht

/-- C9 counterexample: after pushing three lines into the fresh queue, only 3
lines are queued — fewer than 4 — and yet a fourth push is silently dropped,
leaving the queue unchanged: the 4-slot circular buffer keeps one slot free,
so its usable capacity is 3, not 4. -/
theorem q_push_capacity_counterexample :
    qcount (q_push (q_push (q_push emptyQueue "R 0 0 M") "A 1 1") "READY 1") = 3 ∧
    (3 : Nat) < 4 ∧
    q_push (q_push (q_push (q_push emptyQueue "R 0 0 M") "A 1 1") "READY 1") "A 2 2"
      = q_push (q_push (q_push emptyQueue "R 0 0 M") "A 1 1") "READY 1" ∧
    qcount (q_push (q_push (q_push (q_push emptyQueue "R 0 0 M") "A 1 1") "READY 1") "A 2 2")
      = 3 :=
  ⟨rfl, by decide, rfl, rfl⟩

/-- C9 (amended): the AI's injection FIFO is a 4-slot circular buffer with
usable capacity 3 and drop-on-overflow: a pushed protocol line is appended
(stored at the head slot, count incremented) whenever fewer than 3 lines are
currently queued, and when 3 lines are queued the push silently drops the
line, leaving the queue unchanged. -/
theorem q_push_spec (q : SPQueue) (s : String)
    (hh : q.qhead < 4) (ht : q.qtail < 4) :
    (qcount q < 3 →
      qcount (q_push q s) = qcount q + 1 ∧
      (q_push q s).qbuf q.qhead = trunc31 s ∧
      (q_push q s).qtail = q.qtail) ∧
    (qcount q = 3 → q_push q s = q) := by
  constructor
  · intro hlt
    have hnf : q_full q = false := by
      cases hq : q_full q
      · rfl
      · exact absurd ((q_full_iff_qcount q hh ht).mp hq) (by omega)
    unfold q_push
    rw [hnf]
    refine ⟨?_, by simp, rfl⟩
    show ((q.qhead + 1) % 4 + 4 - q.qtail) % 4 = qcount q + 1
    unfold qcount at hlt ⊢
    have key : ∀ h < 4, ∀ t < 4, (h + 4 - t) % 4 < 3 →
        ((h + 1) % 4 + 4 - t) % 4 = (h + 4 - t) % 4 + 1 := by decide
    exact key q.qhead hh q.qtail ht hlt
  · intro heq
    have hf : q_full q = true := (q_full_iff_qcount q hh ht).mpr heq
    unfold q_push
    rw [hf]
    rfl

/-- Witness for `q_push_spec` at the fresh queue. -/
theorem q_push_spec_witness :
    (qcount emptyQueue < 3 →
      qcount (q_push emptyQueue "A 1 1") = qcount emptyQueue + 1 ∧
      (q_push emptyQueue "A 1 1").qbuf emptyQueue.qhead = trunc31 "A 1 1" ∧
      (q_push emptyQueue "A 1 1").qtail = emptyQueue.qtail) ∧
    (qcount emptyQueue = 3 → q_push emptyQueue "A 1 1" = emptyQueue) :=
  q_push_spec emptyQueue "A 1 1" (by decide) (by decide)

end AVRmada
